import Mathlib

/-!
Verification development for the adaptive-proficiency core of the `aware`
adaptive-learning backend.

The Lean definitions below are a shallow embedding of the Python source:

* `src/app/src/database/operations.py` (`AtomicDB`, `QueryDB`)
* `src/app/src/services/test_service.py` (`TestService.submit_test`)
* `src/app/src/services/student_service.py` (`StudentService`)

Modelling conventions:

* Python floats (test percentages) are modelled as rationals (`ℚ`); the
  tie-breaking of Python's binary-float `round` is modelled by rational
  round-half-to-even (`roundHalfEven`).
* `datetime.utcnow()` is modelled by a logical clock in the database state
  that strictly increases at every stamped storage write, so `created_at`
  values of successive inserts are strictly increasing, as wall-clock
  timestamps are.
* Python dicts with string keys are modelled as association lists where an
  assignment prepends a binding and `List.lookup` reads the most recent
  binding (last write wins); integer question numbers are modelled by their
  decimal strings (the source applies `str(...)` to every key).
* MongoDB collections are modelled as lists in natural (insertion) order;
  `find_one`/`update_one` act on the first matching document, and the
  `sort("created_at", -1)` of a query is an explicit sort of the filtered
  documents by descending `created_at`.
* Storage unavailability is modelled by per-operation failure flags in the
  database state; an operation whose Python code would raise
  `pymongo` errors returns `Except.error` when its flag is set, and an
  operation whose Python code swallows the error (`except: return ...`)
  returns its fallback value instead.
-/

/-- A question document as consumed by the scoring loop of
`TestService.submit_test`: only the `question_number` and `correct_answer`
keys are read there; `none` models a missing key and the empty string a
falsy value (the source tests `if q_num and correct_ans:`). -/
structure Question where
  question_number : Option String
  correct_answer : Option String
deriving DecidableEq, Repr

/-- A document of the `test_results` collection, with the fields written by
`TestService.submit_test` and read by
`AtomicDB.calculate_and_update_adaptive_proficiency`. -/
structure TestResult where
  student_username : String
  course_id : String
  course_name : String
  topic : String
  proficiency_level : String
  questions : List Question
  student_answers : List (String × String)
  correct_answers : List (String × String)
  score : Nat
  total_questions : Nat
  percentage : ℚ
  created_at : Nat
deriving DecidableEq, Repr

/-- A document of the `student_enrollments` collection
(`AtomicDB.enroll_student`): `proficiency_level` may be `None` until set. -/
structure Enrollment where
  student_username : String
  course_id : String
  proficiency_level : Option String
  enrolled_at : Nat
  updated_at : Nat
deriving DecidableEq, Repr

/-- A storage-layer failure (a `pymongo` exception: server unavailable). -/
inductive PersistenceError where
  | storageUnavailable
deriving DecidableEq, Repr

/-- The database state: the two collections the proficiency core touches,
the logical clock standing for `datetime.utcnow()`, and per-operation
storage-availability flags (`true` = the storage call raises). -/
structure DB where
  test_results : List TestResult
  enrollments : List Enrollment
  clock : Nat
  insert_fails : Bool
  update_fails : Bool
  find_fails : Bool
deriving DecidableEq, Repr

/-- The dictionary returned by `TestService.submit_test`
(`{test_id, score, total_questions, percentage, proficiency_updated}`). -/
structure SubmissionOutcome where
  test_id : String
  score : Nat
  total_questions : Nat
  percentage : ℚ
  proficiency_updated : Option String
deriving DecidableEq, Repr

/-- Python truthiness of an optional string: `None` and `""` are falsy. -/
def truthy : Option String → Option String
  | some s => if s = "" then none else some s
  | none => none

/-- The `correct_answers` dict built by the first loop of
`TestService.submit_test`: `for question in questions: if q_num and
correct_ans: correct_answers[str(q_num)] = correct_ans`.  Dict assignment
is modelled by prepending (lookup returns the most recent binding). -/
def buildCorrectAnswers (questions : List Question) : List (String × String) :=
  questions.foldl
    (fun m q =>
      match truthy q.question_number, truthy q.correct_answer with
      | some k, some v => (k, v) :: m
      | _, _ => m)
    []

/-- The score computed by the second loop of `TestService.submit_test`:
`for q_num, student_ans in student_answers.items(): if
correct_answers.get(str(q_num)) == student_ans: score += 1`. -/
def computeScore (questions : List Question)
    (student_answers : List (String × String)) : Nat :=
  student_answers.countP
    (fun kv => (buildCorrectAnswers questions).lookup kv.1 == some kv.2)

/-- Round a rational to the nearest integer, ties to even (the tie rule of
Python's `round`; representation error of binary floats is not modelled). -/
def roundHalfEven (x : ℚ) : ℤ :=
  if x - ⌊x⌋ < 1 / 2 then ⌊x⌋
  else if 1 / 2 < x - ⌊x⌋ then ⌊x⌋ + 1
  else if 2 ∣ ⌊x⌋ then ⌊x⌋ else ⌊x⌋ + 1

/-- Python's `round(x, 2)`. -/
def round2 (x : ℚ) : ℚ := (roundHalfEven (x * 100) : ℚ) / 100

/-- Whether a test result belongs to the given student and course (the
filter of the MongoDB queries on `test_results`). -/
def matchesTest (s c : String) (t : TestResult) : Bool :=
  t.student_username = s && t.course_id = c

/-- Insert a test result into a list sorted by descending `created_at`. -/
def insertByCreatedDesc (t : TestResult) : List TestResult → List TestResult
  | [] => [t]
  | u :: us =>
    if u.created_at ≤ t.created_at then t :: u :: us
    else u :: insertByCreatedDesc t us

/-- Sort test results by descending `created_at`
(the `.sort("created_at", -1)` of the MongoDB query). -/
def sortByCreatedDesc (l : List TestResult) : List TestResult :=
  l.foldr insertByCreatedDesc []

/-- `db.test_results.find({student, course}).sort("created_at", -1).limit(3)`:
the three most recent results of the student in the course. -/
def lastThree (db : DB) (s c : String) : List TestResult :=
  (sortByCreatedDesc (db.test_results.filter (matchesTest s c))).take 3

/-- Whether an enrollment document matches the `{student_username,
course_id}` filter used by every enrollment query and update. -/
def matchesKey (s c : String) (e : Enrollment) : Bool :=
  e.student_username = s && e.course_id = c

/-- `student_enrollments.find_one({student, course})`: first match. -/
def findEnrollment (l : List Enrollment) (s c : String) : Option Enrollment :=
  l.find? (matchesKey s c)

/-- The effect of `update_one({student, course}, {$set: {proficiency_level,
updated_at}})`: modify the first matching document, if any. -/
def setProficiencyFirst (s c level : String) (now : Nat) :
    List Enrollment → List Enrollment
  | [] => []
  | e :: es =>
    if matchesKey s c e then
      { e with proficiency_level := some level, updated_at := now } :: es
    else e :: setProficiencyFirst s c level now es

/-- The effect of the upsert `update_one({student, course}, {$set: doc})`
when a match exists: replace the fields of the first matching document. -/
def replaceEnrollmentFirst (s c : String) (d : Enrollment) :
    List Enrollment → List Enrollment
  | [] => []
  | e :: es =>
    if matchesKey s c e then d :: es
    else e :: replaceEnrollmentFirst s c d es

/-- `percentage = (score / total_questions * 100) if total_questions > 0
else 0` as computed by `TestService.submit_test`. -/
def rawPercentage (questions : List Question)
    (student_answers : List (String × String)) : ℚ :=
  if 0 < questions.length then
    (computeScore questions student_answers : ℚ) /
      (questions.length : ℚ) * 100
  else 0

/-- The `test_result_doc` dictionary assembled by `TestService.submit_test`
(its `created_at` is stamped at insertion time). -/
def submittedDoc (s c cn tp pl : String) (questions : List Question)
    (student_answers : List (String × String)) : TestResult :=
  { student_username := s, course_id := c, course_name := cn, topic := tp,
    proficiency_level := pl, questions := questions,
    student_answers := student_answers,
    correct_answers := buildCorrectAnswers questions,
    score := computeScore questions student_answers,
    total_questions := questions.length,
    percentage := round2 (rawPercentage questions student_answers),
    created_at := 0 }

/-- The database state after a successful `insert_one` of a test result:
the document is stamped with `created_at = utcnow()` and appended. -/
def insertedDB (db : DB) (doc : TestResult) : DB :=
  { db with
      test_results := db.test_results ++ [{ doc with created_at := db.clock }],
      clock := db.clock + 1 }

namespace AtomicDB

/-- `AtomicDB.insert_test_result`: stamps `created_at = utcnow()`, inserts,
and returns the inserted id.  The source has no exception handler here, so
a storage failure propagates (`Except.error`). -/
def insert_test_result (db : DB) (doc : TestResult) :
    Except PersistenceError (DB × String) :=
  if db.insert_fails then .error .storageUnavailable
  else .ok (insertedDB db doc, toString db.clock)

/-- `AtomicDB.update_enrollment_proficiency`: `update_one` with
`$set: {proficiency_level, updated_at}`; returns
`modified_count > 0 or matched_count > 0`.  The bare `except: return False`
of the source swallows a storage failure. -/
def update_enrollment_proficiency (db : DB) (s c level : String) :
    DB × Bool :=
  if db.update_fails then (db, false)
  else
    ({ db with
        enrollments := setProficiencyFirst s c level db.clock db.enrollments,
        clock := db.clock + 1 },
     (findEnrollment db.enrollments s c).isSome)

/-- `AtomicDB.enroll_student`: upsert of a full enrollment document
`{student_username, course_id, proficiency_level, enrolled_at, updated_at}`
keyed on `(student_username, course_id)`; returns `True` on success, and the
bare `except: return False` of the source swallows a storage failure. -/
def enroll_student (db : DB) (s c : String) (proficiency_level : Option String) :
    DB × Bool :=
  if db.update_fails then (db, false)
  else
    let doc : Enrollment :=
      { student_username := s, course_id := c,
        proficiency_level := proficiency_level,
        enrolled_at := db.clock, updated_at := db.clock }
    let es :=
      if (findEnrollment db.enrollments s c).isSome then
        replaceEnrollmentFirst s c doc db.enrollments
      else db.enrollments ++ [doc]
    ({ db with enrollments := es, clock := db.clock + 1 }, true)

/-- The bucket-counting rule chain of
`AtomicDB.calculate_and_update_adaptive_proficiency` (lines 141-165),
applied to the extracted percentages. -/
def adaptiveProficiency (percentages : List ℚ) : String :=
  let below_30 := percentages.countP (fun p => decide (p < 30))
  let between_30_70 :=
    percentages.countP (fun p => decide (30 ≤ p) && decide (p < 70))
  let above_70 := percentages.countP (fun p => decide (70 ≤ p))
  if below_30 = 3 then "beginner"
  else if above_70 = 3 then "advanced"
  else if 2 ≤ between_30_70 then "intermediate"
  else if 2 ≤ above_70 then "advanced"
  else if 2 ≤ below_30 then "beginner"
  else "intermediate"

/-- `AtomicDB.calculate_and_update_adaptive_proficiency`: reads the last 3
test results of the (student, course) pair, returns `None` on fewer than 3,
otherwise classifies their percentages, writes the level through
`update_enrollment_proficiency` (return value ignored by the source) and
returns the level.  The surrounding `except Exception: return None` swallows
a storage failure of the read (`find_fails`). -/
def calculate_and_update_adaptive_proficiency (db : DB) (s c : String) :
    DB × Option String :=
  if db.find_fails then (db, none)
  else
    let tests := lastThree db s c
    if tests.length < 3 then (db, none)
    else
      let percentages := tests.map (fun t => t.percentage)
      let newProf := adaptiveProficiency percentages
      if newProf ≠ "" then
        ((update_enrollment_proficiency db s c newProf).1, some newProf)
      else (db, none)

end AtomicDB

namespace QueryDB

/-- `QueryDB.get_enrollment_proficiency`:
`enrollment.get("proficiency_level") if enrollment else None`. -/
def get_enrollment_proficiency (db : DB) (s c : String) : Option String :=
  (findEnrollment db.enrollments s c).bind (fun e => e.proficiency_level)

end QueryDB

namespace TestService

/-- `TestService.submit_test`: score the answers, compute the (rounded)
percentage, insert the test result (a storage failure here propagates), then
run the adaptive-proficiency update and return the outcome dictionary. -/
def submit_test (db : DB)
    (student_username course_id course_name topic proficiency_level : String)
    (questions : List Question) (student_answers : List (String × String)) :
    Except PersistenceError (DB × SubmissionOutcome) :=
  match AtomicDB.insert_test_result db
      (submittedDoc student_username course_id course_name topic
        proficiency_level questions student_answers) with
  | .error e => .error e
  | .ok (db1, test_id) =>
    let res :=
      AtomicDB.calculate_and_update_adaptive_proficiency db1
        student_username course_id
    .ok (res.1,
      { test_id := test_id, score := computeScore questions student_answers,
        total_questions := questions.length,
        percentage := round2 (rawPercentage questions student_answers),
        proficiency_updated := res.2 })

end TestService

/-- The three recognized proficiency levels. -/
def validLevels : List String := ["beginner", "intermediate", "advanced"]

namespace StudentService

/-- `StudentService.enroll_student`: passes the supplied level (default
`"intermediate"`) straight to `AtomicDB.enroll_student`, unvalidated. -/
def enroll_student (db : DB) (s c : String)
    (default_proficiency : String) : DB × Bool :=
  AtomicDB.enroll_student db s c (some default_proficiency)

/-- `StudentService.update_proficiency`: raises `ValueError` when the level
is not one of the three recognized values, before any storage access;
otherwise delegates to `AtomicDB.update_enrollment_proficiency`. -/
def update_proficiency (db : DB) (s c level : String) :
    Except String (DB × Bool) :=
  if level ∉ validLevels then
    .error "Invalid proficiency level"
  else .ok (AtomicDB.update_enrollment_proficiency db s c level)

/-- `StudentService.get_proficiency`:
`return proficiency or "intermediate"` (Python `or`: `None` and the empty
string fall back to `"intermediate"`). -/
def get_proficiency (db : DB) (s c : String) : String :=
  match QueryDB.get_enrollment_proficiency db s c with
  | some p => if p = "" then "intermediate" else p
  | none => "intermediate"

end StudentService

/-- Spec-side bucket of a percentage (§4.1 step 1 of the spec):
`below_30` (p < 30), `mid` (30 ≤ p < 70), `high` (p ≥ 70). -/
inductive Bucket where
  | below30 | mid | high
deriving DecidableEq, Repr

/-- Spec-side bucketing of one percentage value. -/
def toBucket (p : ℚ) : Bucket :=
  if p < 30 then .below30 else if p < 70 then .mid else .high

/-- The classifier as worded by the spec: bucket each value, count bucket
membership, and apply the priority rules, first match wins. -/
def specClassifier (ps : List ℚ) : String :=
  let bs := ps.map toBucket
  let nb := bs.count .below30
  let nm := bs.count .mid
  let nh := bs.count .high
  if nb = 3 then "beginner"
  else if nh = 3 then "advanced"
  else if 2 ≤ nm then "intermediate"
  else if 2 ≤ nh then "advanced"
  else if 2 ≤ nb then "beginner"
  else "intermediate"

/-- The key/answer pair a question contributes to the `correct_answers`
dict, when its `question_number` and `correct_answer` are both truthy. -/
def questionEntry (q : Question) : Option (String × String) :=
  match truthy q.question_number, truthy q.correct_answer with
  | some k, some v => some (k, v)
  | _, _ => none

/-- The score as worded by claim C2: the number of questions whose recorded
correct answer exactly matches the student's submitted answer for that
question number (questions without a truthy number or correct answer, or
without a submitted answer, contribute nothing). -/
def claimedScore (questions : List Question)
    (student_answers : List (String × String)) : Nat :=
  questions.countP
    (fun q =>
      match questionEntry q with
      | some kv => student_answers.lookup kv.1 == some kv.2
      | none => false)

example : toBucket 10 = .below30 := by decide
example : AtomicDB.adaptiveProficiency [10, 50, 90] = "intermediate" := by decide
example : AtomicDB.adaptiveProficiency [45, 50, 90] = "intermediate" := by decide
example : AtomicDB.adaptiveProficiency [80, 85, 95] = "advanced" := by decide
example : AtomicDB.adaptiveProficiency [20, 25, 10] = "beginner" := by decide

/-- A sample stored test result of the pair ("alice", "c1"), used by the
concrete instantiations below. -/
def sampleResult (pct : ℚ) (ts : Nat) : TestResult :=
  { student_username := "alice", course_id := "c1", course_name := "Course",
    topic := "t", proficiency_level := "intermediate", questions := [],
    student_answers := [], correct_answers := [], score := 4,
    total_questions := 5, percentage := pct, created_at := ts }

/-- A sample enrollment of the pair ("alice", "c1"). -/
def sampleEnrollment : Enrollment :=
  { student_username := "alice", course_id := "c1",
    proficiency_level := some "beginner", enrolled_at := 0, updated_at := 0 }

/-- A sample database with two stored results (80 and 85) for
("alice", "c1") in which the enrollment-update side of storage is
unavailable. -/
def updateFailsDB : DB :=
  { test_results := [sampleResult 80 0, sampleResult 85 1],
    enrollments := [sampleEnrollment], clock := 2, insert_fails := false,
    update_fails := true, find_fails := false }

/-- An empty database with fully available storage. -/
def emptyDB : DB :=
  { test_results := [], enrollments := [], clock := 0, insert_fails := false,
    update_fails := false, find_fails := false }

/-- A sample database with two stored results for ("alice", "c1") and fully
available storage. -/
def healthyDB : DB :=
  { test_results := [sampleResult 80 0, sampleResult 85 1],
    enrollments := [sampleEnrollment], clock := 2, insert_fails := false,
    update_fails := false, find_fails := false }

/-- A sample database with three stored results for ("alice", "c1") and
fully available storage. -/
def threeResultsDB : DB :=
  { test_results :=
      [sampleResult 80 0, sampleResult 85 1, sampleResult 90 2],
    enrollments := [sampleEnrollment], clock := 3, insert_fails := false,
    update_fails := false, find_fails := false }

/-- The label the classifier computes from the stored three most recent
percentages of the (student, course) pair. -/
def classifierLabel (db : DB) (s c : String) : String :=
  AtomicDB.adaptiveProficiency ((lastThree db s c).map (fun t => t.percentage))

lemma toBucket_below (p : ℚ) : (toBucket p == Bucket.below30) = decide (p < 30) := by
  by_cases h1 : p < 30 <;> by_cases h2 : p < 70 <;> simp [toBucket, h1, h2]

lemma toBucket_mid (p : ℚ) :
    (toBucket p == Bucket.mid) = (decide (30 ≤ p) && decide (p < 70)) := by
  by_cases h1 : p < 30
  · simp [toBucket, h1, not_le.mpr h1]
  · by_cases h2 : p < 70 <;> simp [toBucket, h1, h2, not_lt.mp h1]

lemma toBucket_high (p : ℚ) : (toBucket p == Bucket.high) = decide (70 ≤ p) := by
  by_cases h1 : p < 30
  · have h70 : ¬(70 : ℚ) ≤ p := not_le.mpr (h1.trans (by norm_num))
    simp [toBucket, h1, h70]
  · by_cases h2 : p < 70 <;> simp [toBucket, h1, h2, not_le.mpr, not_lt.mp]

/-- The code's rule chain agrees with the spec's bucket formulation on every
input (in particular on the three-value histories both are applied to). -/
lemma specClassifier_eq_adaptive (ps : List ℚ) :
    specClassifier ps = AtomicDB.adaptiveProficiency ps := by
  unfold specClassifier AtomicDB.adaptiveProficiency
  simp only [List.count, List.countP_map, Function.comp_def,
    toBucket_below, toBucket_mid, toBucket_high]

/-- C1: for every history of exactly 3 percentage values, the classifier of
`AtomicDB.calculate_and_update_adaptive_proficiency` returns the label
obtained by bucketing each value as below_30 (p < 30), mid (30 ≤ p < 70),
high (p ≥ 70) and applying, first match wins: all 3 below_30 → beginner;
all 3 high → advanced; mid ≥ 2 → intermediate; high ≥ 2 → advanced;
below_30 ≥ 2 → beginner; otherwise → intermediate. -/
theorem C1_classifier_matches_spec (ps : List ℚ) (h : ps.length = 3) :
    AtomicDB.adaptiveProficiency ps = specClassifier ps :=
  (specClassifier_eq_adaptive ps).symm

theorem C1_classifier_matches_spec_witness :
    ([(45 : ℚ), 50, 90].length = 3) ∧
      AtomicDB.adaptiveProficiency [(45 : ℚ), 50, 90] =
        specClassifier [(45 : ℚ), 50, 90] :=
  ⟨by decide, C1_classifier_matches_spec [(45 : ℚ), 50, 90] (by decide)⟩

/-- C6: the classifier is order-independent: for every history of exactly 3
percentage values and every permutation of it, the classifier returns the
same label. -/
theorem C6_classifier_order_independent (ps qs : List ℚ)
    (hperm : ps.Perm qs) (h : ps.length = 3) :
    AtomicDB.adaptiveProficiency ps = AtomicDB.adaptiveProficiency qs := by
  unfold AtomicDB.adaptiveProficiency
  rw [hperm.countP_eq, hperm.countP_eq, hperm.countP_eq]

theorem C6_classifier_order_independent_witness :
    ([(10 : ℚ), 80, 45].Perm [(45 : ℚ), 10, 80] ∧
        [(10 : ℚ), 80, 45].length = 3) ∧
      AtomicDB.adaptiveProficiency [(10 : ℚ), 80, 45] =
        AtomicDB.adaptiveProficiency [(45 : ℚ), 10, 80] :=
  ⟨⟨by decide, by decide⟩,
    C6_classifier_order_independent [(10 : ℚ), 80, 45] [(45 : ℚ), 10, 80]
      (by decide) (by decide)⟩

lemma buildCorrectAnswers_step (m : List (String × String)) (q : Question) :
    (match truthy q.question_number, truthy q.correct_answer with
      | some k, some v => (k, v) :: m
      | _, _ => m) =
      (match questionEntry q with
        | some kv => kv :: m
        | none => m) := by
  unfold questionEntry
  cases truthy q.question_number <;> cases truthy q.correct_answer <;> rfl

lemma buildCorrectAnswers_eq_aux (qs : List Question)
    (acc : List (String × String)) :
    qs.foldl
        (fun m q =>
          match truthy q.question_number, truthy q.correct_answer with
          | some k, some v => (k, v) :: m
          | _, _ => m)
        acc = (qs.filterMap questionEntry).reverse ++ acc := by
  induction qs generalizing acc with
  | nil => simp
  | cons q qs ih =>
    rw [List.foldl_cons, buildCorrectAnswers_step, List.filterMap_cons]
    cases hq : questionEntry q with
    | none => simp [hq, ih]
    | some kv => simp [hq, ih]

/-- The `correct_answers` dict holds exactly the truthy question entries,
most recent binding first. -/
lemma buildCorrectAnswers_eq (qs : List Question) :
    buildCorrectAnswers qs = (qs.filterMap questionEntry).reverse := by
  rw [buildCorrectAnswers, buildCorrectAnswers_eq_aux]
  simp

lemma lookup_eq_none_iff (l : List (String × String)) (k : String) :
    l.lookup k = none ↔ k ∉ l.map Prod.fst := by
  induction l with
  | nil => simp
  | cons kv t ih =>
    obtain ⟨a, b⟩ := kv
    by_cases hk : k = a
    · simp [List.lookup, hk]
    · have hbeq : (k == a) = false := beq_eq_false_iff_ne.mpr hk
      simp [List.lookup, hbeq, hk, ih]

lemma lookup_eq_some_iff_mem {l : List (String × String)}
    (h : (l.map Prod.fst).Nodup) (k v : String) :
    l.lookup k = some v ↔ (k, v) ∈ l := by
  induction l with
  | nil => simp
  | cons kv t ih =>
    obtain ⟨a, b⟩ := kv
    simp only [List.map_cons, List.nodup_cons] at h
    by_cases hk : k = a
    · subst hk
      have hnot : (k, v) ∉ t := fun hm =>
        h.1 (List.mem_map.mpr ⟨(k, v), hm, rfl⟩)
      simp [List.lookup, hnot, eq_comm]
    · have hbeq : (k == a) = false := beq_eq_false_iff_ne.mpr hk
      simp [List.lookup, hbeq, ih h.2, hk]

lemma lookup_reverse {l : List (String × String)}
    (h : (l.map Prod.fst).Nodup) (k : String) :
    l.reverse.lookup k = l.lookup k := by
  have h' : (l.reverse.map Prod.fst).Nodup := by
    rw [List.map_reverse]
    exact List.nodup_reverse.mpr h
  cases hl : l.lookup k with
  | none =>
    rw [lookup_eq_none_iff] at hl ⊢
    simpa using hl
  | some v =>
    rw [lookup_eq_some_iff_mem h] at hl
    rw [lookup_eq_some_iff_mem h']
    simpa using hl

lemma countP_split_aux {α : Type} (l : List α) (p q : α → Bool) :
    l.countP p =
      l.countP (fun a => p a && q a) + l.countP (fun a => p a && !q a) := by
  induction l with
  | nil => simp
  | cons x t ih =>
    rw [List.countP_cons, List.countP_cons, List.countP_cons, ih]
    cases hp : p x <;> cases hq : q x <;> simp [hp, hq] <;> omega

lemma countP_notmem_zero (l : List (String × String)) (k : String)
    (h : k ∉ l.map Prod.fst) (p : String × String → Bool) :
    l.countP (fun kv => kv.1 == k && p kv) = 0 := by
  rw [List.countP_eq_zero]
  intro kv hm
  have : kv.1 ≠ k := fun he => h (he ▸ List.mem_map.mpr ⟨kv, hm, rfl⟩)
  simp [this]

lemma countP_key_eq (l : List (String × String))
    (h : (l.map Prod.fst).Nodup) (k v : String) :
    l.countP (fun kv => kv.1 == k && kv.2 == v) =
      if l.lookup k = some v then 1 else 0 := by
  induction l with
  | nil => simp
  | cons kv t ih =>
    obtain ⟨a, b⟩ := kv
    simp only [List.map_cons, List.nodup_cons] at h
    rw [List.countP_cons]
    by_cases hk : k = a
    · subst hk
      rw [countP_notmem_zero t k h.1]
      by_cases hv : b = v <;> simp [List.lookup, hv]
    · have hbeq : (k == a) = false := beq_eq_false_iff_ne.mpr hk
      have hbeq' : (a == k) = false := beq_eq_false_iff_ne.mpr (Ne.symm hk)
      simp [List.lookup, hbeq, hbeq', ih h.2]

lemma countP_lookup_comm (l₁ l₂ : List (String × String))
    (h₁ : (l₁.map Prod.fst).Nodup) (h₂ : (l₂.map Prod.fst).Nodup) :
    l₁.countP (fun kv => l₂.lookup kv.1 == some kv.2) =
      l₂.countP (fun kv => l₁.lookup kv.1 == some kv.2) := by
  induction l₁ with
  | nil => simp [List.lookup]
  | cons kv t ih =>
    obtain ⟨k, v⟩ := kv
    simp only [List.map_cons, List.nodup_cons] at h₁
    rw [List.countP_cons]
    rw [countP_split_aux l₂ (fun kv => ((k, v) :: t).lookup kv.1 == some kv.2)
      (fun kv => kv.1 == k)]
    have e1 : ∀ kv : String × String,
        (((k, v) :: t).lookup kv.1 == some kv.2 && (kv.1 == k)) =
          (kv.1 == k && kv.2 == v) := by
      intro kv
      by_cases hk : kv.1 = k
      · have : (kv.1 == k) = true := beq_iff_eq.mpr hk
        simp [List.lookup, this, hk, eq_comm]
      · have : (kv.1 == k) = false := beq_eq_false_iff_ne.mpr hk
        simp [this]
    have e2 : ∀ kv : String × String,
        (((k, v) :: t).lookup kv.1 == some kv.2 && !(kv.1 == k)) =
          (t.lookup kv.1 == some kv.2) := by
      intro kv
      by_cases hk : kv.1 = k
      · have hb : (kv.1 == k) = true := beq_iff_eq.mpr hk
        have : t.lookup kv.1 = none :=
          (lookup_eq_none_iff t kv.1).mpr (hk ▸ h₁.1)
        simp [hb, this]
      · have hb : (kv.1 == k) = false := beq_eq_false_iff_ne.mpr hk
        simp [List.lookup, hb]
    rw [funext e1, funext e2]
    rw [countP_key_eq l₂ h₂ k v, ih h₁.2]
    have : (List.lookup k ((k, v) :: t) == some v) = true := by
      simp [List.lookup]
    simp only [List.lookup]
    cases hl : l₂.lookup k with
    | none => simp [hl]
    | some w =>
      by_cases hw : w = v <;> simp [hl, hw] <;> omega

lemma countP_filterMap_aux {α β : Type} (l : List α) (f : α → Option β)
    (p : β → Bool) :
    (l.filterMap f).countP p =
      l.countP (fun a =>
        match f a with
        | some b => p b
        | none => false) := by
  induction l with
  | nil => simp
  | cons x t ih =>
    rw [List.filterMap_cons]
    cases hx : f x with
    | none => rw [List.countP_cons]; simp [hx, ih]
    | some b => rw [List.countP_cons, List.countP_cons]; simp [hx, ih]

/-- With pairwise-distinct truthy question numbers and (as for any Python
dict) distinct submitted-answer keys, the score computed by the code equals
the per-question count worded by claim C2. -/
lemma computeScore_eq_claimedScore (questions : List Question)
    (student_answers : List (String × String))
    (hq : ((questions.filterMap questionEntry).map Prod.fst).Nodup)
    (ha : (student_answers.map Prod.fst).Nodup) :
    computeScore questions student_answers =
      claimedScore questions student_answers := by
  unfold computeScore claimedScore
  rw [buildCorrectAnswers_eq]
  have e : ∀ kv : String × String,
      ((questions.filterMap questionEntry).reverse.lookup kv.1 == some kv.2) =
        ((questions.filterMap questionEntry).lookup kv.1 == some kv.2) := by
    intro kv
    rw [lookup_reverse hq]
  rw [funext e, countP_lookup_comm student_answers _ ha hq,
    countP_filterMap_aux]
  congr 1
  funext a
  cases h : questionEntry a <;> simp [h]

/-- C2 (counterexample): with two questions sharing question number "1"
(both with correct answer "A") and the student answering "A", the code's
score is 1, while the number of questions whose recorded correct answer
matches the student's submitted answer for that question number is 2 — so
the score does not count exactly those questions. -/
theorem C2_counterexample_duplicate_numbers :
    computeScore [⟨some "1", some "A"⟩, ⟨some "1", some "A"⟩] [("1", "A")]
        = 1 ∧
      claimedScore [⟨some "1", some "A"⟩, ⟨some "1", some "A"⟩] [("1", "A")]
        = 2 ∧
      ([⟨some "1", some "A"⟩, ⟨some "1", some "A"⟩] : List Question).length
        = 2 := by
  decide

/-- C2 (amended): scoring never raises; `total = len(questions)`; and the
score counts the submitted answer entries that match the recorded correct
answer for their question number which, whenever the truthy question numbers
are pairwise distinct (and the answer keys are distinct, as in any Python
dict), equals the number of questions whose recorded correct answer exactly
matches the student's submitted answer for that question number. -/
theorem C2_amended_score_counts (db : DB)
    (s c cn tp pl : String) (questions : List Question)
    (student_answers : List (String × String))
    (h1 : db.insert_fails = false)
    (hq : ((questions.filterMap questionEntry).map Prod.fst).Nodup)
    (ha : (student_answers.map Prod.fst).Nodup) :
    ∃ db1 out,
      TestService.submit_test db s c cn tp pl questions student_answers =
          .ok (db1, out) ∧
        out.score = claimedScore questions student_answers ∧
        out.total_questions = questions.length := by
  unfold TestService.submit_test AtomicDB.insert_test_result
  rw [h1]
  exact ⟨_, _, rfl,
    computeScore_eq_claimedScore questions student_answers hq ha, rfl⟩

theorem C2_amended_score_counts_witness :
    (({ test_results := [], enrollments := [], clock := 0,
        insert_fails := false, update_fails := false,
        find_fails := false } : DB).insert_fails = false ∧
      ((([⟨some "1", some "A"⟩, ⟨some "2", some "B"⟩] : List Question).filterMap
          questionEntry).map Prod.fst).Nodup ∧
      (([("1", "A"), ("2", "C")] : List (String × String)).map
          Prod.fst).Nodup) ∧
    ∃ db1 out,
      TestService.submit_test
          { test_results := [], enrollments := [], clock := 0,
            insert_fails := false, update_fails := false, find_fails := false }
          "alice" "course1" "Course" "topic" "intermediate"
          [⟨some "1", some "A"⟩, ⟨some "2", some "B"⟩]
          [("1", "A"), ("2", "C")] = .ok (db1, out) ∧
        out.score =
          claimedScore [⟨some "1", some "A"⟩, ⟨some "2", some "B"⟩]
            [("1", "A"), ("2", "C")] ∧
        out.total_questions =
          ([⟨some "1", some "A"⟩, ⟨some "2", some "B"⟩] : List Question).length :=
  ⟨⟨rfl, by decide, by decide⟩,
    C2_amended_score_counts _ "alice" "course1" "Course" "topic" "intermediate"
      _ _ rfl (by decide) (by decide)⟩

lemma length_insertByCreatedDesc (t : TestResult) (l : List TestResult) :
    (insertByCreatedDesc t l).length = l.length + 1 := by
  induction l with
  | nil => rfl
  | cons u us ih =>
    unfold insertByCreatedDesc
    by_cases h : u.created_at ≤ t.created_at <;> simp [h, ih]

lemma length_sortByCreatedDesc (l : List TestResult) :
    (sortByCreatedDesc l).length = l.length := by
  induction l with
  | nil => rfl
  | cons t ts ih =>
    unfold sortByCreatedDesc at ih ⊢
    rw [List.foldr_cons, length_insertByCreatedDesc, ih, List.length_cons]

lemma length_lastThree (db : DB) (s c : String) :
    (lastThree db s c).length =
      min 3 (db.test_results.filter (matchesTest s c)).length := by
  rw [lastThree, List.length_take, length_sortByCreatedDesc]

/-- The rule chain always yields one of the three recognized labels. -/
lemma adaptiveProficiency_mem (ps : List ℚ) :
    AtomicDB.adaptiveProficiency ps ∈ validLevels := by
  unfold AtomicDB.adaptiveProficiency
  simp only []
  split_ifs <;> simp [validLevels]

lemma adaptiveProficiency_ne_empty (ps : List ℚ) :
    AtomicDB.adaptiveProficiency ps ≠ "" := by
  unfold AtomicDB.adaptiveProficiency
  simp only []
  split_ifs <;> decide

/-- When fewer than 3 matching results are stored,
`calculate_and_update_adaptive_proficiency` is a no-op returning `None`. -/
lemma calc_none_of_count_lt (db : DB) (s c : String)
    (h : (db.test_results.filter (matchesTest s c)).length < 3) :
    AtomicDB.calculate_and_update_adaptive_proficiency db s c = (db, none) := by
  unfold AtomicDB.calculate_and_update_adaptive_proficiency
  by_cases hf : db.find_fails
  · simp [hf]
  · have hl : (lastThree db s c).length < 3 := by
      rw [length_lastThree]
      omega
    simp [hf, hl]

lemma calc_preserves_test_results (db : DB) (s c : String) :
    (AtomicDB.calculate_and_update_adaptive_proficiency db s c).1.test_results
      = db.test_results := by
  unfold AtomicDB.calculate_and_update_adaptive_proficiency
    AtomicDB.update_enrollment_proficiency
  by_cases hf : db.find_fails
  · simp [hf]
  · by_cases hl : (lastThree db s c).length < 3
    · simp [hf, hl]
    · by_cases hu : db.update_fails <;>
        simp [hf, hl, hu, adaptiveProficiency_ne_empty]

lemma insertedDB_test_results (db : DB) (doc : TestResult) :
    (insertedDB db doc).test_results =
      db.test_results ++ [{ doc with created_at := db.clock }] := rfl

lemma roundHalfEven_zero : roundHalfEven 0 = 0 := by
  unfold roundHalfEven
  norm_num

lemma round2_zero : round2 0 = 0 := by
  unfold round2
  rw [zero_mul, roundHalfEven_zero]
  norm_num

/-- C4: when fewer than 3 test results exist for the (student, course)
pair, the classifier step returns `None` without touching the database, and
a submission that leaves the pair with fewer than 3 results yields
`proficiency_updated = None` and leaves the stored enrollments unchanged. -/
theorem C4_insufficient_history_skips_classifier (db : DB)
    (s c cn tp pl : String) (questions : List Question)
    (student_answers : List (String × String)) :
    ((db.test_results.filter (matchesTest s c)).length < 3 →
      AtomicDB.calculate_and_update_adaptive_proficiency db s c = (db, none)) ∧
    (db.insert_fails = false →
      (db.test_results.filter (matchesTest s c)).length + 1 < 3 →
      ∃ db1 out,
        TestService.submit_test db s c cn tp pl questions student_answers =
            .ok (db1, out) ∧
          out.proficiency_updated = none ∧
          db1.enrollments = db.enrollments) := by
  constructor
  · exact calc_none_of_count_lt db s c
  · intro h1 hcount
    unfold TestService.submit_test AtomicDB.insert_test_result
    rw [h1]
    simp only [Bool.false_eq_true, if_false]
    have hc1 : ∀ t : TestResult,
        (((db.test_results ++ [t]).filter (matchesTest s c))).length < 3 := by
      intro t
      rw [List.filter_append, List.length_append]
      have : (List.filter (matchesTest s c) [t]).length ≤ 1 :=
        le_trans (List.length_filter_le _ _) (by simp)
      omega
    rw [calc_none_of_count_lt _ s c (hc1 _)]
    exact ⟨_, _, rfl, rfl, rfl⟩

theorem C4_insufficient_history_skips_classifier_witness :
    AtomicDB.calculate_and_update_adaptive_proficiency
        { test_results := [], enrollments := [], clock := 0,
          insert_fails := false, update_fails := false, find_fails := false }
        "alice" "c1" =
      ({ test_results := [], enrollments := [], clock := 0,
          insert_fails := false, update_fails := false, find_fails := false },
        none) ∧
    ∃ db1 out,
      TestService.submit_test
          { test_results := [], enrollments := [], clock := 0,
            insert_fails := false, update_fails := false, find_fails := false }
          "alice" "c1" "Course" "topic" "intermediate" [] [] =
          .ok (db1, out) ∧
        out.proficiency_updated = none ∧
        db1.enrollments =
          ({ test_results := [], enrollments := [], clock := 0,
              insert_fails := false, update_fails := false,
              find_fails := false } : DB).enrollments :=
  ⟨(C4_insufficient_history_skips_classifier _ "alice" "c1" "Course" "topic"
      "intermediate" [] []).1 (by decide),
    (C4_insufficient_history_skips_classifier _ "alice" "c1" "Course" "topic"
      "intermediate" [] []).2 rfl (by decide)⟩

/-- C5: for every submission (with storage available for the insert), the
stored and the returned percentage both equal `score / total * 100` rounded
to 2 decimal places when `total > 0`, and equal 0 when `total = 0`; the
zero-total case returns normally (no division error). -/
theorem C5_percentage_formula_total_zero_safe (db : DB)
    (s c cn tp pl : String) (questions : List Question)
    (student_answers : List (String × String))
    (h1 : db.insert_fails = false) :
    ∃ db1 out,
      TestService.submit_test db s c cn tp pl questions student_answers =
          .ok (db1, out) ∧
        out.percentage =
          (if 0 < questions.length then
            round2 ((computeScore questions student_answers : ℚ) /
              (questions.length : ℚ) * 100)
          else 0) ∧
        out.total_questions = questions.length ∧
        db1.test_results.map (fun d => d.percentage) =
          db.test_results.map (fun d => d.percentage) ++ [out.percentage] := by
  unfold TestService.submit_test AtomicDB.insert_test_result
  rw [h1]
  simp only [Bool.false_eq_true, if_false]
  refine ⟨_, _, rfl, ?_, rfl, ?_⟩
  · by_cases hq : 0 < questions.length
    · simp [hq, rawPercentage]
    · simp [hq, rawPercentage, round2_zero]
  · rw [calc_preserves_test_results, insertedDB_test_results, List.map_append]
    rfl

theorem C5_percentage_formula_total_zero_safe_witness :
    (({ test_results := [], enrollments := [], clock := 0,
        insert_fails := false, update_fails := false,
        find_fails := false } : DB).insert_fails = false) ∧
    ∃ db1 out,
      TestService.submit_test
          { test_results := [], enrollments := [], clock := 0,
            insert_fails := false, update_fails := false, find_fails := false }
          "alice" "c1" "Course" "topic" "intermediate" [] [] =
          .ok (db1, out) ∧
        out.percentage =
          (if 0 < ([] : List Question).length then
            round2 ((computeScore [] [] : ℚ) /
              (([] : List Question).length : ℚ) * 100)
          else 0) ∧
        out.total_questions = ([] : List Question).length ∧
        db1.test_results.map (fun d => d.percentage) =
          ({ test_results := [], enrollments := [], clock := 0,
              insert_fails := false, update_fails := false,
              find_fails := false } : DB).test_results.map
              (fun d => d.percentage) ++ [out.percentage] :=
  ⟨rfl, C5_percentage_formula_total_zero_safe _ "alice" "c1" "Course" "topic"
    "intermediate" [] [] rfl⟩

/-- With storage readable and at least 3 matching results, the classifier
step computes the label, attempts the enrollment update, and returns the
label (whether or not the update succeeded: its return value is ignored). -/
lemma calc_enough (db : DB) (s c : String) (hf : db.find_fails = false)
    (hc : 3 ≤ (db.test_results.filter (matchesTest s c)).length) :
    AtomicDB.calculate_and_update_adaptive_proficiency db s c =
      ((AtomicDB.update_enrollment_proficiency db s c
          (classifierLabel db s c)).1,
        some (classifierLabel db s c)) := by
  unfold AtomicDB.calculate_and_update_adaptive_proficiency
  have hl : ¬(lastThree db s c).length < 3 := by
    rw [length_lastThree]
    omega
  simp [hf, hl, adaptiveProficiency_ne_empty, classifierLabel]

lemma update_fst_update_fail (db : DB) (s c level : String)
    (h2 : db.update_fails = true) :
    (AtomicDB.update_enrollment_proficiency db s c level).1 = db := by
  simp [AtomicDB.update_enrollment_proficiency, h2]

/-- A failing enrollment update is swallowed: the classifier step leaves
the whole state untouched when the update-side storage is unavailable. -/
lemma calc_fst_update_fail (db : DB) (s c : String)
    (h2 : db.update_fails = true) :
    (AtomicDB.calculate_and_update_adaptive_proficiency db s c).1 = db := by
  unfold AtomicDB.calculate_and_update_adaptive_proficiency
    AtomicDB.update_enrollment_proficiency
  by_cases hf : db.find_fails
  · simp [hf]
  · by_cases hl : (lastThree db s c).length < 3
    · simp [hf, hl]
    · simp [hf, hl, h2, adaptiveProficiency_ne_empty]

/-- C3 (counterexample): with two stored results (80 and 85) for the pair
and storage unavailable for the enrollment update, submitting a third test
does NOT abort: it returns a normal `.ok` outcome whose
`proficiency_updated` even reports "advanced", while the stored enrollment
silently keeps its old level "beginner". -/
theorem C3_counterexample_update_failure_not_surfaced :
    ∃ db1 out,
      TestService.submit_test updateFailsDB
          "alice" "c1" "Course" "topic" "intermediate" [] [] =
        .ok (db1, out) ∧
      out.proficiency_updated = some "advanced" ∧
      db1.enrollments = [sampleEnrollment] := by
  unfold TestService.submit_test AtomicDB.insert_test_result
  simp only [Bool.false_eq_true, if_false, updateFailsDB]
  refine ⟨_, _, rfl, ?_, ?_⟩
  · rw [calc_enough _ "alice" "c1" rfl (by decide)]
    simp only [Option.some.injEq]
    simp [classifierLabel, lastThree, matchesTest, sortByCreatedDesc,
      insertByCreatedDesc, round2_zero, AtomicDB.adaptiveProficiency,
      insertedDB, submittedDoc, rawPercentage, sampleResult]
    decide
  · rw [calc_fst_update_fail _ "alice" "c1" rfl]
    rfl

/-- C3 (amended): a storage failure during the insert of the TestResult
does abort `submit` and surfaces as a retryable error; but a storage
failure during the proficiency update is swallowed: `submit` returns a
normal outcome, the stored enrollments are unchanged, and (when the history
is readable and long enough) `proficiency_updated` still reports the
computed label even though it was never stored. -/
theorem C3_amended_insert_aborts_update_swallowed (db : DB)
    (s c cn tp pl : String) (questions : List Question)
    (student_answers : List (String × String)) :
    (db.insert_fails = true →
      TestService.submit_test db s c cn tp pl questions student_answers =
        .error .storageUnavailable) ∧
    (db.insert_fails = false → db.update_fails = true →
      ∃ db1 out,
        TestService.submit_test db s c cn tp pl questions student_answers =
            .ok (db1, out) ∧
          db1.enrollments = db.enrollments ∧
          (db.find_fails = false →
            2 ≤ (db.test_results.filter (matchesTest s c)).length →
            out.proficiency_updated = some (classifierLabel db1 s c))) := by
  constructor
  · intro h
    unfold TestService.submit_test AtomicDB.insert_test_result
    rw [h]
    rfl
  · intro h1 h2
    unfold TestService.submit_test AtomicDB.insert_test_result
    rw [h1]
    simp only [Bool.false_eq_true, if_false]
    refine ⟨_, _, rfl, ?_, ?_⟩
    · rw [calc_fst_update_fail
        (insertedDB db (submittedDoc s c cn tp pl questions student_answers))
        s c h2]
      rfl
    · intro hf hc
      have hc1 : 3 ≤
          (((insertedDB db
              (submittedDoc s c cn tp pl questions
                student_answers)).test_results).filter
              (matchesTest s c)).length := by
        rw [insertedDB_test_results, List.filter_append, List.length_append]
        have hm : matchesTest s c
            { submittedDoc s c cn tp pl questions student_answers with
                created_at := db.clock } = true := by
          simp [matchesTest, submittedDoc]
        simp only [List.filter_cons, hm, List.filter_nil, if_true]
        simp
        omega
      rw [calc_enough _ s c
        (show (insertedDB db
          (submittedDoc s c cn tp pl questions
            student_answers)).find_fails = false from hf) hc1]
      rw [update_fst_update_fail _ s c _
        (show (insertedDB db
          (submittedDoc s c cn tp pl questions
            student_answers)).update_fails = true from h2)]


theorem C3_amended_insert_aborts_update_swallowed_witness :
    TestService.submit_test
        { test_results := [], enrollments := [], clock := 0,
          insert_fails := true, update_fails := false, find_fails := false }
        "alice" "c1" "Course" "topic" "intermediate" [] [] =
      .error .storageUnavailable ∧
    ∃ db1 out,
      TestService.submit_test updateFailsDB
          "alice" "c1" "Course" "topic" "intermediate" [] [] =
          .ok (db1, out) ∧
        db1.enrollments = updateFailsDB.enrollments ∧
        (updateFailsDB.find_fails = false →
          2 ≤ (updateFailsDB.test_results.filter
              (matchesTest "alice" "c1")).length →
          out.proficiency_updated =
            some (classifierLabel db1 "alice" "c1")) :=
  ⟨(C3_amended_insert_aborts_update_swallowed _ "alice" "c1" "Course" "topic"
      "intermediate" [] []).1 rfl,
    (C3_amended_insert_aborts_update_swallowed updateFailsDB "alice" "c1"
      "Course" "topic" "intermediate" [] []).2 rfl rfl⟩

lemma findEnrollment_setProficiencyFirst (l : List Enrollment)
    (s c level : String) (now : Nat)
    (h : (findEnrollment l s c).isSome) :
    ∃ e, findEnrollment l s c = some e ∧
      findEnrollment (setProficiencyFirst s c level now l) s c =
        some { e with proficiency_level := some level, updated_at := now } := by
  induction l with
  | nil => simp [findEnrollment] at h
  | cons e0 es ih =>
    by_cases hm : matchesKey s c e0
    · refine ⟨e0, ?_, ?_⟩
      · simp [findEnrollment, List.find?, hm]
      · have hm' : matchesKey s c
            { e0 with proficiency_level := some level, updated_at := now } =
              true := hm
        simp [setProficiencyFirst, findEnrollment, List.find?, hm, hm']
    · have h' : (findEnrollment es s c).isSome := by
        simpa [findEnrollment, List.find?, hm] using h
      obtain ⟨e, he1, he2⟩ := ih h'
      refine ⟨e, ?_, ?_⟩
      · simpa [findEnrollment, List.find?, hm] using he1
      · simpa [setProficiencyFirst, findEnrollment, List.find?, hm] using he2

/-- With readable storage, a working update path, at least 3 matching
results and an existing enrollment, the classifier step returns the label
of the 3 most recent percentages and stores it in the enrollment, stamping
`updated_at` with the current time. -/
lemma calc_updates_enrollment (db : DB) (s c : String)
    (hf : db.find_fails = false) (hu : db.update_fails = false)
    (hc : 3 ≤ (db.test_results.filter (matchesTest s c)).length)
    (he : (findEnrollment db.enrollments s c).isSome) :
    (AtomicDB.calculate_and_update_adaptive_proficiency db s c).2 =
        some (classifierLabel db s c) ∧
      ∃ e, findEnrollment
          (AtomicDB.calculate_and_update_adaptive_proficiency
            db s c).1.enrollments s c = some e ∧
        e.proficiency_level = some (classifierLabel db s c) ∧
        e.updated_at = db.clock := by
  rw [calc_enough db s c hf hc]
  refine ⟨rfl, ?_⟩
  unfold AtomicDB.update_enrollment_proficiency
  rw [hu]
  simp only [Bool.false_eq_true, if_false]
  obtain ⟨e0, -, he2⟩ :=
    findEnrollment_setProficiencyFirst db.enrollments s c
      (classifierLabel db s c) db.clock he
  exact ⟨_, he2, rfl, rfl⟩

lemma count_insertedDB (db : DB) (s c cn tp pl : String)
    (questions : List Question)
    (student_answers : List (String × String)) :
    (((insertedDB db
        (submittedDoc s c cn tp pl questions
          student_answers)).test_results).filter (matchesTest s c)).length =
      (db.test_results.filter (matchesTest s c)).length + 1 := by
  rw [insertedDB_test_results, List.filter_append, List.length_append]
  have hm : matchesTest s c
      { submittedDoc s c cn tp pl questions student_answers with
          created_at := db.clock } = true := by
    simp [matchesTest, submittedDoc]
  simp [hm]

/-- C7: whenever at least 3 test results exist for the pair, the classifier
step runs on every submission and unconditionally overwrites the
enrollment's stored level with the label of the 3 most recent percentages,
stamping `updated_at` — no hysteresis, and no dependence on the previously
stored level.  Stated both for the classifier step on an arbitrary state
and for a full `submit_test` call. -/
theorem C7_unconditional_reclassification (db : DB) (s c : String) :
    (db.find_fails = false → db.update_fails = false →
      3 ≤ (db.test_results.filter (matchesTest s c)).length →
      (findEnrollment db.enrollments s c).isSome →
      (AtomicDB.calculate_and_update_adaptive_proficiency db s c).2 =
          some (classifierLabel db s c) ∧
        ∃ e, findEnrollment
            (AtomicDB.calculate_and_update_adaptive_proficiency
              db s c).1.enrollments s c = some e ∧
          e.proficiency_level = some (classifierLabel db s c) ∧
          e.updated_at = db.clock) ∧
    (∀ (cn tp pl : String) (questions : List Question)
        (student_answers : List (String × String)),
      db.insert_fails = false → db.find_fails = false →
      db.update_fails = false →
      2 ≤ (db.test_results.filter (matchesTest s c)).length →
      (findEnrollment db.enrollments s c).isSome →
      ∃ db1 out e,
        TestService.submit_test db s c cn tp pl questions student_answers =
            .ok (db1, out) ∧
          out.proficiency_updated = some (classifierLabel db1 s c) ∧
          findEnrollment db1.enrollments s c = some e ∧
          e.proficiency_level = some (classifierLabel db1 s c) ∧
          e.updated_at = db.clock + 1) := by
  constructor
  · exact fun hf hu hc he => calc_updates_enrollment db s c hf hu hc he
  · intro cn tp pl questions student_answers h1 hf hu hc he
    unfold TestService.submit_test AtomicDB.insert_test_result
    rw [h1]
    simp only [Bool.false_eq_true, if_false]
    have hc1 : 3 ≤
        (((insertedDB db
            (submittedDoc s c cn tp pl questions
              student_answers)).test_results).filter
            (matchesTest s c)).length := by
      rw [count_insertedDB]
      omega
    obtain ⟨hout, e, hfind, hlev, hupd⟩ :=
      calc_updates_enrollment
        (insertedDB db (submittedDoc s c cn tp pl questions student_answers))
        s c hf hu hc1 he
    refine ⟨_, _, e, rfl, ?_, ?_, ?_, hupd⟩
    · rw [hout]
      have hsame : classifierLabel
          (AtomicDB.calculate_and_update_adaptive_proficiency
            (insertedDB db
              (submittedDoc s c cn tp pl questions student_answers))
            s c).1 s c =
          classifierLabel
            (insertedDB db
              (submittedDoc s c cn tp pl questions student_answers)) s c := by
        unfold classifierLabel lastThree
        rw [calc_preserves_test_results]
      rw [hsame]
    · exact hfind
    · rw [hlev]
      have hsame : classifierLabel
          (AtomicDB.calculate_and_update_adaptive_proficiency
            (insertedDB db
              (submittedDoc s c cn tp pl questions student_answers))
            s c).1 s c =
          classifierLabel
            (insertedDB db
              (submittedDoc s c cn tp pl questions student_answers)) s c := by
        unfold classifierLabel lastThree
        rw [calc_preserves_test_results]
      rw [hsame]

theorem C7_unconditional_reclassification_witness :
    ((AtomicDB.calculate_and_update_adaptive_proficiency threeResultsDB
          "alice" "c1").2 =
        some (classifierLabel threeResultsDB "alice" "c1") ∧
      ∃ e, findEnrollment
          (AtomicDB.calculate_and_update_adaptive_proficiency
            threeResultsDB "alice" "c1").1.enrollments "alice" "c1" =
            some e ∧
        e.proficiency_level =
          some (classifierLabel threeResultsDB "alice" "c1") ∧
        e.updated_at = threeResultsDB.clock) ∧
    ∃ db1 out e,
      TestService.submit_test healthyDB "alice" "c1" "Course" "topic"
          "intermediate" [] [] = .ok (db1, out) ∧
        out.proficiency_updated = some (classifierLabel db1 "alice" "c1") ∧
        findEnrollment db1.enrollments "alice" "c1" = some e ∧
        e.proficiency_level = some (classifierLabel db1 "alice" "c1") ∧
        e.updated_at = healthyDB.clock + 1 :=
  ⟨(C7_unconditional_reclassification threeResultsDB "alice" "c1").1 rfl rfl
      (by decide) (by decide),
    (C7_unconditional_reclassification healthyDB "alice" "c1").2 "Course"
      "topic" "intermediate" [] [] rfl rfl rfl (by decide) (by decide)⟩

lemma findEnrollment_replaceFirst (l : List Enrollment) (s c : String)
    (d : Enrollment) (hd : matchesKey s c d = true)
    (h : (findEnrollment l s c).isSome) :
    findEnrollment (replaceEnrollmentFirst s c d l) s c = some d := by
  induction l with
  | nil => simp [findEnrollment] at h
  | cons e0 es ih =>
    by_cases hm : matchesKey s c e0
    · simp [replaceEnrollmentFirst, findEnrollment, List.find?, hm, hd]
    · have h' : (findEnrollment es s c).isSome := by
        simpa [findEnrollment, List.find?, hm] using h
      simpa [replaceEnrollmentFirst, findEnrollment, List.find?, hm]
        using ih h'

lemma findEnrollment_append_single (l : List Enrollment) (s c : String)
    (d : Enrollment) (hd : matchesKey s c d = true)
    (h : findEnrollment l s c = none) :
    findEnrollment (l ++ [d]) s c = some d := by
  induction l with
  | nil => simp [findEnrollment, List.find?, hd]
  | cons e0 es ih =>
    by_cases hm : matchesKey s c e0
    · simp [findEnrollment, List.find?, hm] at h
    · have h' : findEnrollment es s c = none := by
        simpa [findEnrollment, List.find?, hm] using h
      simpa [findEnrollment, List.find?, hm] using ih h'

/-- The upsert of `AtomicDB.enroll_student` (with available storage) always
reports success and leaves the pair's first enrollment equal to the freshly
built document: supplied level, `enrolled_at` and `updated_at` both reset
to now. -/
lemma enroll_student_upsert (db : DB) (s c : String)
    (level : Option String) (hu : db.update_fails = false) :
    ∃ db1, AtomicDB.enroll_student db s c level = (db1, true) ∧
      findEnrollment db1.enrollments s c =
        some { student_username := s, course_id := c,
               proficiency_level := level,
               enrolled_at := db.clock, updated_at := db.clock } := by
  unfold AtomicDB.enroll_student
  rw [hu]
  simp only [Bool.false_eq_true, if_false]
  refine ⟨_, rfl, ?_⟩
  have hd : matchesKey s c
      { student_username := s, course_id := c, proficiency_level := level,
        enrolled_at := db.clock, updated_at := db.clock } = true := by
    simp [matchesKey]
  by_cases he : (findEnrollment db.enrollments s c).isSome
  · simp only [he, if_true]
    exact findEnrollment_replaceFirst db.enrollments s c _ hd he
  · simp only [he, if_false]
    exact findEnrollment_append_single db.enrollments s c _ hd
      (Option.not_isSome_iff_eq_none.mp he)

/-- C8 (counterexample): the enrollment path accepts an externally supplied
proficiency level: enrolling with the invalid level "expert" performs an
enrollment write that stores "expert" — so not every externally supplied
invalid level is rejected before reaching storage. -/
theorem C8_counterexample_enroll_stores_invalid_level :
    (StudentService.enroll_student emptyDB "alice" "c1" "expert").2 = true ∧
      findEnrollment
        (StudentService.enroll_student emptyDB "alice" "c1"
          "expert").1.enrollments "alice" "c1" =
        some { student_username := "alice", course_id := "c1",
               proficiency_level := some "expert", enrolled_at := 0,
               updated_at := 0 } ∧
      "expert" ∉ validLevels := by
  decide

/-- C8 (amended): the manual override path
(`StudentService.update_proficiency`) rejects every level outside
{beginner, intermediate, advanced} before any storage access (a ValueError,
no enrollment write); the enrollment path, however, stores any supplied
level unvalidated. -/
theorem C8_amended_override_validated_enroll_not (db : DB)
    (s c level : String) (h : level ∉ validLevels) :
    StudentService.update_proficiency db s c level =
        .error "Invalid proficiency level" ∧
      (db.update_fails = false →
        ∃ db1, StudentService.enroll_student db s c level = (db1, true) ∧
          findEnrollment db1.enrollments s c =
            some { student_username := s, course_id := c,
                   proficiency_level := some level,
                   enrolled_at := db.clock, updated_at := db.clock }) := by
  constructor
  · simp [StudentService.update_proficiency, h]
  · intro hu
    exact enroll_student_upsert db s c (some level) hu

theorem C8_amended_override_validated_enroll_not_witness :
    ("expert" ∉ validLevels) ∧
    (StudentService.update_proficiency emptyDB "alice" "c1" "expert" =
        .error "Invalid proficiency level" ∧
      (emptyDB.update_fails = false →
        ∃ db1,
          StudentService.enroll_student emptyDB "alice" "c1" "expert" =
              (db1, true) ∧
            findEnrollment db1.enrollments "alice" "c1" =
              some { student_username := "alice", course_id := "c1",
                     proficiency_level := some "expert",
                     enrolled_at := emptyDB.clock,
                     updated_at := emptyDB.clock })) :=
  ⟨by decide,
    C8_amended_override_validated_enroll_not emptyDB "alice" "c1" "expert"
      (by decide)⟩

/-- C9: re-enrolling an already-enrolled student in the same course
overwrites the stored proficiency_level with the newly supplied level (the
service default is "intermediate") and resets `enrolled_at` (and
`updated_at`) to now, discarding whatever level the classifier or a
professor had stored; only the (student, course) key is preserved. -/
theorem C9_reenroll_overwrites_enrollment (db : DB) (s c lvl : String)
    (hu : db.update_fails = false)
    (he : (findEnrollment db.enrollments s c).isSome) :
    ∃ db1, StudentService.enroll_student db s c lvl = (db1, true) ∧
      findEnrollment db1.enrollments s c =
        some { student_username := s, course_id := c,
               proficiency_level := some lvl,
               enrolled_at := db.clock, updated_at := db.clock } :=
  enroll_student_upsert db s c (some lvl) hu

theorem C9_reenroll_overwrites_enrollment_witness :
    (healthyDB.update_fails = false ∧
      (findEnrollment healthyDB.enrollments "alice" "c1").isSome) ∧
    ∃ db1,
      StudentService.enroll_student healthyDB "alice" "c1" "intermediate" =
          (db1, true) ∧
        findEnrollment db1.enrollments "alice" "c1" =
          some { student_username := "alice", course_id := "c1",
                 proficiency_level := some "intermediate",
                 enrolled_at := healthyDB.clock,
                 updated_at := healthyDB.clock } :=
  ⟨⟨rfl, by decide⟩,
    C9_reenroll_overwrites_enrollment healthyDB "alice" "c1" "intermediate"
      rfl (by decide)⟩

/-- C10 (counterexample): an invalid stored level is reachable through the
public enroll interface, and `get_proficiency` then returns it verbatim —
so test-difficulty selection does not always receive one of the three
recognized levels. -/
theorem C10_counterexample_invalid_stored_level :
    StudentService.get_proficiency
        (StudentService.enroll_student emptyDB "alice" "c1" "expert").1
        "alice" "c1" = "expert" ∧
      "expert" ∉ validLevels := by
  decide

/-- C10 (amended): `get_proficiency` never yields null (or the empty
string) at the public interface — a missing enrollment or a null stored
level yields "intermediate" — and, whenever every stored level is null or
one of the three recognized levels, the result is one of the three
recognized levels; but an invalid stored non-null level is returned
verbatim. -/
theorem C10_amended_get_proficiency_fallback (db : DB) (s c : String) :
    (QueryDB.get_enrollment_proficiency db s c = none →
      StudentService.get_proficiency db s c = "intermediate") ∧
    StudentService.get_proficiency db s c ≠ "" ∧
    ((∀ e ∈ db.enrollments, e.proficiency_level = none ∨
        ∃ l ∈ validLevels, e.proficiency_level = some l) →
      StudentService.get_proficiency db s c ∈ validLevels) := by
  refine ⟨?_, ?_, ?_⟩
  · intro h
    simp [StudentService.get_proficiency, h]
  · unfold StudentService.get_proficiency
    cases hg : QueryDB.get_enrollment_proficiency db s c with
    | none => simp
    | some p =>
      by_cases hp : p = "" <;> simp [hp]
  · intro hinv
    unfold StudentService.get_proficiency
    cases hg : QueryDB.get_enrollment_proficiency db s c with
    | none => simp [validLevels]
    | some p =>
      obtain ⟨e, hfind, hlev⟩ : ∃ e, findEnrollment db.enrollments s c =
          some e ∧ e.proficiency_level = some p := by
        unfold QueryDB.get_enrollment_proficiency at hg
        cases hf : findEnrollment db.enrollments s c with
        | none => rw [hf] at hg; simp at hg
        | some e => rw [hf] at hg; exact ⟨e, rfl, hg⟩
      have hmem : e ∈ db.enrollments :=
        List.mem_of_find?_eq_some hfind
      rcases hinv e hmem with hnone | ⟨l, hl, hsome⟩
      · rw [hnone] at hlev
        exact absurd hlev (by simp)
      · rw [hsome] at hlev
        have hlp : l = p := by simpa using hlev
        subst hlp
        show (if l = "" then "intermediate" else l) ∈ validLevels
        by_cases hp : l = ""
        · rw [if_pos hp]
          decide
        · rw [if_neg hp]
          exact hl

theorem C10_amended_get_proficiency_fallback_witness :
    (QueryDB.get_enrollment_proficiency emptyDB "alice" "c1" = none →
      StudentService.get_proficiency emptyDB "alice" "c1" =
        "intermediate") ∧
    StudentService.get_proficiency emptyDB "alice" "c1" ≠ "" ∧
    ((∀ e ∈ emptyDB.enrollments, e.proficiency_level = none ∨
        ∃ l ∈ validLevels, e.proficiency_level = some l) →
      StudentService.get_proficiency emptyDB "alice" "c1" ∈ validLevels) :=
  C10_amended_get_proficiency_fallback emptyDB "alice" "c1"
